import Mathlib

/-!
# Verification of the PoolFormer backbone (`models/poolformer.py`)

This file gives a shallow embedding of the core numeric computations of the
PoolFormer vision backbone and proves the specified properties about them.

Conventions of the embedding:

* A feature map for a single sample is a function `Fin C → Fin H → Fin W → ℚ`
  (channels × height × width); the batch dimension adds nothing to the
  per-sample computations and is handled by quantifying over samples.
* Exact rational arithmetic stands in for the float arithmetic of the source;
  the normalization operators, whose definition requires a square root, are
  embedded over the reals.
* Fallible computations (Python exceptions) are embedded with `Except String`.
* Shape propagation through the staged network is modelled by a small
  module-level abstraction whose per-module shape action mirrors the typed
  value-level operators defined here.
-/

namespace PoolFormerProof

/-! ## Stage builder: stochastic-depth (drop-path) rate schedule

`basic_blocks` assigns block `block_idx` of stage `index` the rate
`drop_path_rate * (block_idx + sum(layers[:index])) / (sum(layers) - 1)`. -/

/-- The drop-path rate computed by `basic_blocks` for block `blockIdx` of stage
`index`, transcribed from the source (exact arithmetic). -/
def blockDpr (dropPathRate : ℚ) (layers : List ℕ) (index blockIdx : ℕ) : ℚ :=
  dropPathRate * ((blockIdx : ℚ) + ((layers.take index).sum : ℚ))
    / ((layers.sum : ℚ) - 1)

/-- Python division: raises `ZeroDivisionError` when the denominator is zero. -/
def pyDiv (a b : ℚ) : Except String ℚ :=
  if b = 0 then .error "ZeroDivisionError: float division by zero"
  else .ok (a / b)

/-- The drop-path rate computation of `basic_blocks` with Python's division
semantics made explicit: the division raises when `sum(layers) = 1`. -/
def blockDprChecked (dropPathRate : ℚ) (layers : List ℕ) (index blockIdx : ℕ) :
    Except String ℚ :=
  pyDiv (dropPathRate * ((blockIdx : ℚ) + ((layers.take index).sum : ℚ)))
    ((layers.sum : ℚ) - 1)

/-- C2: the stage builder assigns block `blockIdx` of stage `index` the rate
`dropPathRate * (blockIdx + sum(layers[:index])) / (sum(layers) - 1)` in exact
rational arithmetic; consequently the very first block (stage 0, block 0) gets
rate 0 exactly and the last block of the last stage gets `dropPathRate`
exactly, provided the total block count exceeds 1.  The last stage is
written as the final entry of `front ++ [lastBlocks]`. -/
theorem blockDpr_schedule (dropPathRate : ℚ) (front : List ℕ) (lastBlocks : ℕ)
    (hlast : 0 < lastBlocks) (hsum : 1 < (front ++ [lastBlocks]).sum) :
    (∀ index blockIdx,
      blockDpr dropPathRate (front ++ [lastBlocks]) index blockIdx =
        dropPathRate *
          ((blockIdx : ℚ) + (((front ++ [lastBlocks]).take index).sum : ℚ))
          / (((front ++ [lastBlocks]).sum : ℚ) - 1)) ∧
    blockDpr dropPathRate (front ++ [lastBlocks]) 0 0 = 0 ∧
    blockDpr dropPathRate (front ++ [lastBlocks]) front.length (lastBlocks - 1)
      = dropPathRate := by
  refine ⟨fun index blockIdx => rfl, by simp [blockDpr], ?_⟩
  have hd : ((front.sum : ℚ) + (lastBlocks : ℚ)) - 1 ≠ 0 := by
    have h1 : (1 : ℚ) < ((front ++ [lastBlocks]).sum : ℚ) := by exact_mod_cast hsum
    have h2 : ((front ++ [lastBlocks]).sum : ℚ)
        = (front.sum : ℚ) + (lastBlocks : ℚ) := by
      push_cast [List.sum_append]
      simp
    rw [h2] at h1
    linarith
  unfold blockDpr
  rw [List.take_left]
  have hcast : ((lastBlocks - 1 : ℕ) : ℚ) = (lastBlocks : ℚ) - 1 := by
    have h1 : (1 : ℕ) ≤ lastBlocks := hlast
    push_cast [h1]
    ring
  have hsum2 : ((front ++ [lastBlocks]).sum : ℚ)
      = (front.sum : ℚ) + (lastBlocks : ℚ) := by
    push_cast [List.sum_append]
    simp
  rw [hcast, hsum2, mul_div_assoc,
    show (lastBlocks : ℚ) - 1 + (front.sum : ℚ)
        = (front.sum : ℚ) + (lastBlocks : ℚ) - 1 from by ring,
    div_self hd, mul_one]

/-- Witness for C2 at the PoolFormer-S12 configuration `layers = [2, 2, 6, 2]`
with maximum rate `1/10`: the first block's rate is exactly 0 and the last
block's rate (stage 3, block 1) is exactly `1/10`. -/
theorem blockDpr_schedule_witness :
    blockDpr (1/10) ([2, 2, 6] ++ [2]) 0 0 = 0 ∧
    blockDpr (1/10) ([2, 2, 6] ++ [2]) 3 1 = 1/10 := by
  have h := blockDpr_schedule (1/10) [2, 2, 6] 2 (by decide) (by decide)
  exact ⟨h.2.1, h.2.2⟩

/-- C6: the constructor performs no validation; a configuration with
`sum(layers) = 1` (here `layers = [1, 0, 0, 0]`) makes the stage builder's
drop-path rate computation divide by zero, raising a `ZeroDivisionError`
rather than a descriptive configuration error. -/
theorem blockDprChecked_div_by_zero :
    blockDprChecked (1/10) [1, 0, 0, 0] 0 0
      = .error "ZeroDivisionError: float division by zero" := by
  unfold blockDprChecked pyDiv
  norm_num

/-! ## Token mixer: `Pooling` (average pooling minus identity)

`Pooling` wraps `nn.AvgPool2d(pool_size, stride=1, padding=pool_size//2,
count_include_pad=False)` and its forward returns `self.pool(x) - x`. -/

/-- A single-sample single-channel feature map. -/
abbrev Grid (H W : ℕ) := Fin H → Fin W → ℚ

/-- The in-bounds indices covered by a 1-D pooling window of extent `k`,
stride `stride` and padding `pad` at output position `i`: the window spans
positions `i*stride - pad` through `i*stride - pad + k - 1` of the padded
axis, clipped to the valid range `[0, size)`. -/
def poolWindow (k stride pad size : ℕ) (i : ℕ) : Finset (Fin size) :=
  Finset.univ.filter (fun r =>
    (i * stride : Int) - pad ≤ ((r : ℕ) : Int) ∧
    ((r : ℕ) : Int) ≤ (i * stride : Int) - pad + k - 1)

/-- One output entry of `nn.AvgPool2d` with `count_include_pad=False`: the sum
over the in-bounds part of the `k×k` window divided by the number of in-bounds
elements (padding positions are excluded from the divisor). -/
def avgPool2dEntry (k stride pad : ℕ) {H W : ℕ} (x : Grid H W) (i j : ℕ) : ℚ :=
  (∑ r ∈ poolWindow k stride pad H i, ∑ c ∈ poolWindow k stride pad W j, x r c)
    / (((poolWindow k stride pad H i).card
        * (poolWindow k stride pad W j).card : ℕ) : ℚ)

/-- Spatial output size of a 2-D convolution / pooling along one axis. -/
def convOutSize (size k stride pad : ℕ) : ℕ := (size + 2 * pad - k) / stride + 1

/-- `Pooling.forward`: average pooling (stride 1, padding `k/2`,
excluded-padding divisor) minus the input. -/
def poolingForward (k : ℕ) {H W : ℕ} (x : Grid H W) : Grid H W :=
  fun i j => avgPool2dEntry k 1 (k / 2) x (i : ℕ) (j : ℕ) - x i j

/-- Modelled from the spec's words for comparison: the in-bounds part of a
`k×k` window *centered* at `i` (radius `k/2`). -/
def specWindow (k size : ℕ) (i : ℕ) : Finset (Fin size) :=
  Finset.univ.filter (fun r =>
    (i : Int) - ((k / 2 : ℕ) : Int) ≤ ((r : ℕ) : Int) ∧
    ((r : ℕ) : Int) ≤ (i : Int) + ((k / 2 : ℕ) : Int))

/-- Modelled from the spec's words for comparison: "a local average over a
`k×k` window ... where boundary windows average only over the in-bounds
elements". -/
def specLocalAverage (k : ℕ) {H W : ℕ} (x : Grid H W) (i j : ℕ) : ℚ :=
  (∑ r ∈ specWindow k H i, ∑ c ∈ specWindow k W j, x r c)
    / (((specWindow k H i).card * (specWindow k W j).card : ℕ) : ℚ)

/-- For odd `k`, the stride-1 window with padding `k/2` starting at `i - k/2`
is exactly the window of radius `k/2` centered at `i`, clipped to bounds. -/
theorem poolWindow_eq_specWindow (k : ℕ) (hk : Odd k) (size i : ℕ) :
    poolWindow k 1 (k / 2) size i = specWindow k size i := by
  obtain ⟨m, hm⟩ := hk
  subst hm
  ext r
  simp only [poolWindow, specWindow, Finset.mem_filter, Finset.mem_univ,
    true_and, mul_one]
  have h2 : (2 * m + 1) / 2 = m := by omega
  rw [h2]
  push_cast
  omega

/-- C4: for every input and every odd pool size `k`, the token mixer computes
the excluded-padding local average over the `k×k` window centered at each
position, minus the input; and the pooling output size formula returns the
input size (shape preservation). -/
theorem poolingForward_spec (k : ℕ) (hk : Odd k) {H W : ℕ}
    (hH : 0 < H) (hW : 0 < W) (x : Grid H W) :
    convOutSize H k 1 (k / 2) = H ∧ convOutSize W k 1 (k / 2) = W ∧
    ∀ (i : Fin H) (j : Fin W),
      poolingForward k x i j = specLocalAverage k x (i : ℕ) (j : ℕ) - x i j := by
  obtain ⟨m, hm⟩ := hk
  refine ⟨?_, ?_, fun i j => ?_⟩
  · unfold convOutSize
    omega
  · unfold convOutSize
    omega
  · unfold poolingForward avgPool2dEntry specLocalAverage
    rw [poolWindow_eq_specWindow k ⟨m, hm⟩ H (i : ℕ),
      poolWindow_eq_specWindow k ⟨m, hm⟩ W (j : ℕ)]

/-- Witness for C4: `k = 3` on a concrete `2×2` input. -/
theorem poolingForward_spec_witness :
    Odd 3 ∧ (0 < 2 ∧
      poolingForward 3 (fun i j : Fin 2 => ((i : ℕ) : ℚ) + 2 * ((j : ℕ) : ℚ))
          0 0
        = specLocalAverage 3
            (fun i j : Fin 2 => ((i : ℕ) : ℚ) + 2 * ((j : ℕ) : ℚ)) 0 0
          - (fun i j : Fin 2 => ((i : ℕ) : ℚ) + 2 * ((j : ℕ) : ℚ)) 0 0) := by
  refine ⟨⟨1, by decide⟩, by decide, ?_⟩
  exact (poolingForward_spec 3 ⟨1, by decide⟩ (by decide) (by decide)
    (fun i j : Fin 2 => ((i : ℕ) : ℚ) + 2 * ((j : ℕ) : ℚ))).2.2 0 0

/-- C8: on a constant input, the token mixer's output is exactly zero at every
position (including truncated boundary windows), for every odd pool size. -/
theorem poolingForward_const_eq_zero (k : ℕ) (hk : Odd k) {H W : ℕ}
    (c : ℚ) (i : Fin H) (j : Fin W) :
    poolingForward k (fun _ _ => c) i j = 0 := by
  obtain ⟨m, hm⟩ := hk
  unfold poolingForward avgPool2dEntry
  have hi : i ∈ poolWindow k 1 (k / 2) H (i : ℕ) := by
    subst hm
    simp only [poolWindow, Finset.mem_filter, Finset.mem_univ, true_and,
      mul_one]
    have h2 : (2 * m + 1) / 2 = m := by omega
    rw [h2]
    push_cast
    omega
  have hj : j ∈ poolWindow k 1 (k / 2) W (j : ℕ) := by
    subst hm
    simp only [poolWindow, Finset.mem_filter, Finset.mem_univ, true_and,
      mul_one]
    have h2 : (2 * m + 1) / 2 = m := by omega
    rw [h2]
    push_cast
    omega
  have hcH : 0 < (poolWindow k 1 (k / 2) H (i : ℕ)).card :=
    Finset.card_pos.mpr ⟨i, hi⟩
  have hcW : 0 < (poolWindow k 1 (k / 2) W (j : ℕ)).card :=
    Finset.card_pos.mpr ⟨j, hj⟩
  have hne : (((poolWindow k 1 (k / 2) H (i : ℕ)).card
      * (poolWindow k 1 (k / 2) W (j : ℕ)).card : ℕ) : ℚ) ≠ 0 := by
    have : 0 < (poolWindow k 1 (k / 2) H (i : ℕ)).card
        * (poolWindow k 1 (k / 2) W (j : ℕ)).card := Nat.mul_pos hcH hcW
    exact_mod_cast this.ne'
  have hsum : (∑ r ∈ poolWindow k 1 (k / 2) H (i : ℕ),
      ∑ c' ∈ poolWindow k 1 (k / 2) W (j : ℕ), c)
      = (((poolWindow k 1 (k / 2) H (i : ℕ)).card
          * (poolWindow k 1 (k / 2) W (j : ℕ)).card : ℕ) : ℚ) * c := by
    simp only [Finset.sum_const, smul_smul, nsmul_eq_mul]
    push_cast
    ring
  rw [hsum, mul_comm, mul_div_assoc, div_self hne, mul_one]
  exact sub_self c

/-- Witness for C8: `k = 3` on the constant-5 input of shape `2×2`. -/
theorem poolingForward_const_eq_zero_witness :
    Odd 3 ∧ poolingForward 3 (fun _ _ : Fin 2 => (5 : ℚ)) 0 0 = 0 :=
  ⟨⟨1, by decide⟩,
    poolingForward_const_eq_zero 3 ⟨1, by decide⟩ 5 0 0⟩

/-! ## Residual block: `PoolFormerBlock`

The block's submodules (`norm1`, `token_mixer`, `norm2`, `mlp`, `drop_path`)
are higher-order parameters of the forward function, exactly as they are
attributes of the module in the source; the forward body is transcribed from
`PoolFormerBlock.forward`. -/

/-- A single-sample multi-channel feature map. -/
abbrev Tensor (C H W : ℕ) := Fin C → Fin H → Fin W → ℚ

/-- Layer scale: a per-channel vector broadcast over the two spatial
dimensions (`.unsqueeze(-1).unsqueeze(-1) * x`). -/
def layerScaleMul {C H W : ℕ} (ls : Fin C → ℚ) (x : Tensor C H W) :
    Tensor C H W :=
  fun c i j => ls c * x c i j

/-- `PoolFormerBlock.forward`, transcribed from the source: two sequential
residual updates, with the per-channel layer scales applied only when
`useLayerScale` is set. -/
def poolFormerBlockForward {C H W : ℕ} (useLayerScale : Bool)
    (ls1 ls2 : Fin C → ℚ)
    (norm1 tokenMixer norm2 mlp dropPathF : Tensor C H W → Tensor C H W)
    (x : Tensor C H W) : Tensor C H W :=
  if useLayerScale then
    let x1 := x + dropPathF (layerScaleMul ls1 (tokenMixer (norm1 x)))
    x1 + dropPathF (layerScaleMul ls2 (mlp (norm2 x1)))
  else
    let x1 := x + dropPathF (tokenMixer (norm1 x))
    x1 + dropPathF (mlp (norm2 x1))

/-- Modelled from the spec's words for comparison: one residual update
`x = x + drop_path(LayerScale * Branch(x))`. -/
def specResidualStep {C H W : ℕ} (ls : Fin C → ℚ)
    (branch dropPathF : Tensor C H W → Tensor C H W) (x : Tensor C H W) :
    Tensor C H W :=
  x + dropPathF (layerScaleMul ls (branch x))

/-- timm `DropPath` acting on one sample of the batch: identity when the rate
is zero or the module is in inference mode; in training mode the sample's
whole residual branch is either zeroed (dropped) or divided by `1 - p`
(kept), where `keep` abstracts the Bernoulli(1-p) draw for this sample. -/
def dropPath {C H W : ℕ} (p : ℚ) (training keep : Bool) (x : Tensor C H W) :
    Tensor C H W :=
  if p = 0 ∨ training = false then x
  else if keep then fun c i j => x c i j / (1 - p)
  else 0

/-- The block's `drop_path` attribute:
`DropPath(drop_path) if drop_path > 0. else nn.Identity()`. -/
def blockDropPath {C H W : ℕ} (p : ℚ) (training keep : Bool) :
    Tensor C H W → Tensor C H W :=
  if 0 < p then dropPath p training keep else id

/-- C1: one block forward performs exactly the two residual updates in fixed
order — token-mixer update first, MLP update second, the second applied to the
result of the first — and with the layer-scale feature off the same two
updates are performed with the multiplicative-identity scale vector. -/
theorem poolFormerBlockForward_two_updates {C H W : ℕ} (ls1 ls2 : Fin C → ℚ)
    (norm1 tokenMixer norm2 mlp dropPathF : Tensor C H W → Tensor C H W)
    (x : Tensor C H W) :
    poolFormerBlockForward true ls1 ls2 norm1 tokenMixer norm2 mlp dropPathF x
      = specResidualStep ls2 (fun y => mlp (norm2 y)) dropPathF
          (specResidualStep ls1 (fun y => tokenMixer (norm1 y)) dropPathF x) ∧
    poolFormerBlockForward false ls1 ls2 norm1 tokenMixer norm2 mlp dropPathF x
      = specResidualStep (fun _ => 1) (fun y => mlp (norm2 y)) dropPathF
          (specResidualStep (fun _ => 1) (fun y => tokenMixer (norm1 y))
            dropPathF x) := by
  have hone : ∀ y : Tensor C H W, layerScaleMul (fun _ => (1 : ℚ)) y = y := by
    intro y
    funext c i j
    simp [layerScaleMul]
  constructor
  · rfl
  · simp only [specResidualStep, hone]
    rfl

/-- C9: with both layer-scale vectors set to zero the block forward returns
its input unchanged, whatever the drop-path rate, mode and Bernoulli draw
(identity or branch-zeroing alike); and a drop-path rate of 0 is the identity
regardless of training/inference mode, both for the `DropPath` operator itself
and for the block's `drop_path` attribute. -/
theorem poolFormerBlock_identity_zero_layer_scale {C H W : ℕ} (p : ℚ)
    (training keep : Bool)
    (norm1 tokenMixer norm2 mlp : Tensor C H W → Tensor C H W)
    (x : Tensor C H W) :
    poolFormerBlockForward true (fun _ => 0) (fun _ => 0) norm1 tokenMixer
        norm2 mlp (blockDropPath p training keep) x = x ∧
    (∀ (tr kp : Bool) (y : Tensor C H W), dropPath 0 tr kp y = y) ∧
    (∀ (tr kp : Bool) (y : Tensor C H W), blockDropPath 0 tr kp y = y) := by
  have hzero : ∀ y : Tensor C H W,
      layerScaleMul (fun _ => (0 : ℚ)) y = 0 := by
    intro y
    funext c i j
    simp [layerScaleMul]
  have hdp : dropPath (C := C) (H := H) (W := W) p training keep 0 = 0 := by
    unfold dropPath
    split
    · rfl
    · split
      · funext c i j
        simp
      · rfl
  have hbdp : blockDropPath (C := C) (H := H) (W := W) p training keep 0
      = 0 := by
    unfold blockDropPath
    split
    · exact hdp
    · rfl
  refine ⟨?_, ?_, ?_⟩
  · simp only [poolFormerBlockForward, if_true, hzero, hbdp, add_zero]
  · intro tr kp y
    unfold dropPath
    simp
  · intro tr kp y
    unfold blockDropPath
    simp

/-! ## Normalization operators: `GroupNorm` (1 group) and `LayerNormChannel`

The repository's `GroupNorm` subclasses `nn.GroupNorm` with `num_groups = 1`;
`nn.GroupNorm` (an external compute primitive) normalizes each contiguous
group of `C / num_groups` channels of each sample with that group's mean and
biased variance over group-channels × height × width, then applies a
per-channel affine.  `LayerNormChannel.forward` is transcribed directly from
the source (`mean(1, keepdim=True)` reduces over the channel dimension only,
separately at every spatial position). -/

/-- A single-sample multi-channel feature map over the reals. -/
abbrev RTensor (C H W : ℕ) := Fin C → Fin H → Fin W → ℝ

/-- Mean over the flattened `C×H×W` volume of one sample. -/
noncomputable def volMean {C H W : ℕ} (x : RTensor C H W) : ℝ :=
  (∑ c, ∑ i, ∑ j, x c i j) / (C * H * W : ℕ)

/-- Biased variance over the flattened `C×H×W` volume of one sample. -/
noncomputable def volVar {C H W : ℕ} (x : RTensor C H W) : ℝ :=
  (∑ c, ∑ i, ∑ j, (x c i j - volMean x) ^ 2) / (C * H * W : ℕ)

/-- The channels sharing a `nn.GroupNorm` group with channel `c` when the
channels are split into `numGroups` contiguous groups of `C / numGroups`. -/
def groupChannels {C : ℕ} (numGroups : ℕ) (c : Fin C) : Finset (Fin C) :=
  Finset.univ.filter
    (fun c' => (c' : ℕ) / (C / numGroups) = (c : ℕ) / (C / numGroups))

/-- Per-group mean of `nn.GroupNorm`. -/
noncomputable def groupMean {C H W : ℕ} (numGroups : ℕ) (x : RTensor C H W) (c : Fin C) :
    ℝ :=
  (∑ c' ∈ groupChannels numGroups c, ∑ i, ∑ j, x c' i j)
    / ((C / numGroups) * H * W : ℕ)

/-- Per-group biased variance of `nn.GroupNorm`. -/
noncomputable def groupVar {C H W : ℕ} (numGroups : ℕ) (x : RTensor C H W) (c : Fin C) :
    ℝ :=
  (∑ c' ∈ groupChannels numGroups c,
      ∑ i, ∑ j, (x c' i j - groupMean numGroups x c) ^ 2)
    / ((C / numGroups) * H * W : ℕ)

/-- `nn.GroupNorm` forward on one sample: group statistics, epsilon added to
the variance before the square root, then the per-channel affine. -/
noncomputable def groupNormForward {C H W : ℕ} (numGroups : ℕ) (eps : ℝ)
    (w b : Fin C → ℝ) (x : RTensor C H W) : RTensor C H W :=
  fun c i j =>
    w c * ((x c i j - groupMean numGroups x c)
      / Real.sqrt (groupVar numGroups x c + eps)) + b c

/-- The per-position channel mean `x.mean(1, keepdim=True)` of
`LayerNormChannel.forward`. -/
noncomputable def chanMean {C H W : ℕ} (x : RTensor C H W) (i : Fin H) (j : Fin W) : ℝ :=
  (∑ c, x c i j) / (C : ℕ)

/-- The per-position channel variance `(x - u).pow(2).mean(1, keepdim=True)`
of `LayerNormChannel.forward`. -/
noncomputable def chanVar {C H W : ℕ} (x : RTensor C H W) (i : Fin H) (j : Fin W) : ℝ :=
  (∑ c, (x c i j - chanMean x i j) ^ 2) / (C : ℕ)

/-- `LayerNormChannel.forward`, transcribed from the source. -/
noncomputable def layerNormChannelForward {C H W : ℕ} (eps : ℝ) (w b : Fin C → ℝ)
    (x : RTensor C H W) : RTensor C H W :=
  fun c i j =>
    w c * ((x c i j - chanMean x i j) / Real.sqrt (chanVar x i j + eps)) + b c

/-- Modelled from the spec's words for comparison: normalize each sample with
a single mean/variance over the flattened `C×H×W` volume, epsilon added to
the variance before the square root, then the per-channel affine. -/
noncomputable def specVolumeNorm {C H W : ℕ} (eps : ℝ) (w b : Fin C → ℝ)
    (x : RTensor C H W) : RTensor C H W :=
  fun c i j =>
    w c * ((x c i j - volMean x) / Real.sqrt (volVar x + eps)) + b c

/-- With a single group every channel is in the group of every channel. -/
theorem groupChannels_one {C : ℕ} (c : Fin C) :
    groupChannels 1 c = Finset.univ := by
  ext c'
  simp [groupChannels, Nat.div_one, Nat.div_eq_of_lt c'.isLt,
    Nat.div_eq_of_lt c.isLt]

/-- Counterexample input for C5: two channels, one row, two columns, both
channels equal to `[0, 2]`. -/
noncomputable def lncCexInput : RTensor 2 1 2 := fun _ _ j => if j = 0 then 0 else 2

/-- C5 fails for `LayerNormChannel`: with unit weight and zero bias, its
output on `lncCexInput` differs from the spec's whole-volume normalization —
at channel 0, position (0,0) the channel mean equals the entry, so
`LayerNormChannel` outputs 0, while the volume-normalized output is negative.
-/
theorem layerNormChannel_not_volume_norm :
    ¬ (layerNormChannelForward (1/100000) (fun _ => 1) (fun _ => 0)
          lncCexInput
        = specVolumeNorm (1/100000) (fun _ => 1) (fun _ => 0) lncCexInput) := by
  intro h
  have h0 := congrFun (congrFun (congrFun h 0) 0) 0
  have hL : layerNormChannelForward (1/100000) (fun _ => (1 : ℝ))
      (fun _ => 0) lncCexInput 0 0 0 = 0 := by
    unfold layerNormChannelForward chanMean lncCexInput
    norm_num [Fin.sum_univ_two]
  have hmean : volMean lncCexInput = 1 := by
    unfold volMean lncCexInput
    norm_num [Fin.sum_univ_two, Fin.sum_univ_one]
  have hvar : volVar lncCexInput = 1 := by
    unfold volVar
    rw [hmean]
    unfold lncCexInput
    norm_num [Fin.sum_univ_two, Fin.sum_univ_one]
  have hR : specVolumeNorm (1/100000) (fun _ => (1 : ℝ)) (fun _ => 0)
      lncCexInput 0 0 0 < 0 := by
    unfold specVolumeNorm
    rw [hmean, hvar]
    have hx : lncCexInput 0 0 0 = 0 := by
      unfold lncCexInput
      norm_num
    rw [hx]
    have hs : 0 < Real.sqrt (1 + 1/100000) := Real.sqrt_pos.mpr (by norm_num)
    have hq : (0 - 1 : ℝ) / Real.sqrt (1 + 1/100000) < 0 :=
      div_neg_of_neg_of_pos (by norm_num) hs
    linarith
  rw [hL] at h0
  rw [← h0] at hR
  exact lt_irrefl 0 hR

/-- C5 (amended): the default normalization operator — the repository's
`GroupNorm`, i.e. `nn.GroupNorm` with one group — normalizes each sample with
a single mean and biased variance over the flattened `C×H×W` volume, adds
epsilon to the variance before the square root, and applies the per-channel
affine; the alternative `LayerNormChannel` instead computes its mean and
variance per sample and per spatial position over the channel dimension only.
-/
theorem groupNorm_one_is_volume_norm {C H W : ℕ} (eps : ℝ)
    (w b : Fin C → ℝ) (x : RTensor C H W) :
    groupNormForward 1 eps w b x = specVolumeNorm eps w b x ∧
    layerNormChannelForward eps w b x
      = fun c i j =>
          w c * ((x c i j - chanMean x i j)
            / Real.sqrt (chanVar x i j + eps)) + b c := by
  refine ⟨?_, rfl⟩
  funext c i j
  have hmean : groupMean 1 x c = volMean x := by
    unfold groupMean volMean
    rw [groupChannels_one c, Nat.div_one]
  have hvar : groupVar 1 x c = volVar x := by
    unfold groupVar volVar
    rw [groupChannels_one c, Nat.div_one, hmean]
  unfold groupNormForward specVolumeNorm
  rw [hmean, hvar]

/-! ## Network assembler: `PoolFormer.__init__` / `forward_tokens` / `forward`

Shape propagation through the staged network.  A stage of `PoolFormerBlock`s
is shape-preserving at its configured channel width (the value-level
`poolFormerBlockForward` above has type `Tensor C H W → Tensor C H W`); a
`PatchEmbed` is a strided convolution, so it maps channels `inChans` to
`embedDim` and each spatial size through `convOutSize`.  Channel mismatches
are the loud shape errors of the compute engine, embedded as `Except`. -/

/-- The shape `[C, H, W]` of one sample. -/
structure Shape where
  chans : ℕ
  height : ℕ
  width : ℕ
deriving DecidableEq

/-- One element of the `network` module list: a stage of residual blocks or a
downsampling `PatchEmbed`. -/
inductive PFModule where
  | stage (dim nblocks : ℕ)
  | embed (patch stride pad inChans embedDim : ℕ)
deriving DecidableEq

/-- Shape action of `PatchEmbed`: a `Conv2d(inChans, embedDim, patch, stride,
pad)` requires `inChans` input channels and resizes both spatial axes. -/
def patchEmbedShape (patch stride pad inChans embedDim : ℕ) (s : Shape) :
    Except String Shape :=
  if s.chans = inChans then
    .ok ⟨embedDim, convOutSize s.height patch stride pad,
      convOutSize s.width patch stride pad⟩
  else .error "Conv2d: channel mismatch"

/-- Shape action of one `network` element. -/
def applyPFModule : PFModule → Shape → Except String Shape
  | .stage dim _, s =>
      if s.chans = dim then .ok s else .error "block: channel mismatch"
  | .embed patch stride pad inChans embedDim, s =>
      patchEmbedShape patch stride pad inChans embedDim s

/-- The `network` list built by `PoolFormer.__init__`: one stage per entry of
`layers`, with a downsampling `PatchEmbed` after stage `i` whenever `i` is not
last and `downsamples[i] or embed_dims[i] != embed_dims[i+1]`. -/
def buildNetwork (layers embedDims : List ℕ) (downsamples : List Bool)
    (downPatch downStride downPad : ℕ) : List PFModule :=
  (List.range layers.length).flatMap (fun i =>
    PFModule.stage (embedDims.getD i 0) (layers.getD i 0) ::
      (if i ≥ layers.length - 1 then []
       else if downsamples.getD i false
           ∨ embedDims.getD i 0 ≠ embedDims.getD (i + 1) 0 then
         [PFModule.embed downPatch downStride downPad (embedDims.getD i 0)
           (embedDims.getD (i + 1) 0)]
       else []))

/-- `self.out_indices = [0, 2, 4, 6]` (feature-pyramid mode). -/
def outIndices : List ℕ := [0, 2, 4, 6]

/-- The per-output normalization operators attached in feature-pyramid mode:
for `(i_emb, i_layer)` in `enumerate(out_indices)`, attach `norm{i_layer}`
with `embed_dims[i_emb]` channels — except that with the `FORK_LAST3`
environment flag set the first one is an `nn.Identity` (`none`). -/
def buildForkNorms (embedDims : List ℕ) (forkLast3 : Bool) :
    List (ℕ × Option ℕ) :=
  outIndices.enum.map (fun p =>
    if p.1 = 0 ∧ forkLast3 = true then (p.2, none)
    else (p.2, some (embedDims.getD p.1 0)))

/-- Shape action of an output normalization: `none` is `nn.Identity`; `some c`
is a `GroupNorm` over `c` channels (shape-preserving, channels must match). -/
def normShape (normChans : Option ℕ) (s : Shape) : Except String Shape :=
  match normChans with
  | none => .ok s
  | some c => if s.chans = c then .ok s else .error "norm: channel mismatch"

/-- `PoolFormer.forward_tokens`: run the module list, and at each index that
carries an attached output norm (feature-pyramid mode) record the normalized
feature map; in classification mode `norms` is empty and nothing is
recorded.  Returns the final feature shape and the recorded outputs. -/
def forwardTokensAux (norms : List (ℕ × Option ℕ)) :
    List PFModule → ℕ → Shape → Except String (Shape × List Shape)
  | [], _, s => .ok (s, [])
  | m :: rest, idx, s => do
    let s' ← applyPFModule m s
    let outsHere ←
      match norms.find? (fun p => p.1 == idx) with
      | none => pure ([] : List Shape)
      | some p => do
        let so ← normShape p.2 s'
        pure [so]
    let (final, outs) ← forwardTokensAux norms rest (idx + 1) s'
    pure (final, outsHere ++ outs)

/-- `PoolFormer.forward` in feature-pyramid mode (`fork_feat = True`): stem
patch embedding (`in_chans = 3`), then the module list, returning the list of
normalized stage-endpoint feature maps. -/
def pfForwardForkShapes (layers embedDims : List ℕ) (downsamples : List Bool)
    (inPatch inStride inPad downPatch downStride downPad : ℕ)
    (forkLast3 : Bool) (input : Shape) : Except String (List Shape) := do
  let s ← patchEmbedShape inPatch inStride inPad 3 (embedDims.getD 0 0) input
  let r ← forwardTokensAux (buildForkNorms embedDims forkLast3)
      (buildNetwork layers embedDims downsamples downPatch downStride downPad)
      0 s
  pure r.2

/-- `PoolFormer.forward` in classification mode (`fork_feat = False`): stem,
module list (no outputs recorded), final `GroupNorm(embed_dims[-1])`, global
average pooling over the two spatial axes (shape `[C, H, W] → [C]`), then
`self.head`, which is `Linear(embed_dims[-1], num_classes)` when
`num_classes > 0` and `nn.Identity()` otherwise.  Returns the per-sample
output feature count. -/
def pfForwardClassShapes (layers embedDims : List ℕ)
    (downsamples : List Bool)
    (inPatch inStride inPad downPatch downStride downPad numClasses : ℕ)
    (input : Shape) : Except String ℕ := do
  let s ← patchEmbedShape inPatch inStride inPad 3 (embedDims.getD 0 0) input
  let r ← forwardTokensAux []
      (buildNetwork layers embedDims downsamples downPatch downStride downPad)
      0 s
  let sn ← normShape (some (embedDims.getLastD 0)) r.1
  let pooled := sn.chans
  if 0 < numClasses then
    if pooled = embedDims.getLastD 0 then pure numClasses
    else .error "Linear: dim mismatch"
  else pure pooled

/-- Stem output size: kernel 7, stride 4, padding 2 quarters the spatial size.
-/
theorem convOutSize_stem (m : ℕ) (hm : 0 < m) : convOutSize (4 * m) 7 4 2 = m := by
  unfold convOutSize
  omega

/-- Downsampler output size: kernel 3, stride 2, padding 1 halves the spatial
size. -/
theorem convOutSize_down (m : ℕ) (hm : 0 < m) : convOutSize (2 * m) 3 2 1 = m := by
  unfold convOutSize
  omega

/-- C3: a 4-stage model in feature-pyramid mode (with the `FORK_LAST3`
environment flag unset) attaches one normalization operator per stage
endpoint — at module indices 0, 2, 4, 6 with `embed_dims[0..3]` channels — and
its forward returns exactly 4 normalized feature maps in increasing depth
order, output `i` having `embed_dims[i]` channels and spatial strides 4, 8,
16, 32 under the default downsampling settings. -/
theorem pfForwardFork_feature_pyramid (l0 l1 l2 l3 e0 e1 e2 e3 h w : ℕ)
    (hh : 0 < h) (hw : 0 < w) :
    buildForkNorms [e0, e1, e2, e3] false
      = [(0, some e0), (2, some e1), (4, some e2), (6, some e3)] ∧
    pfForwardForkShapes [l0, l1, l2, l3] [e0, e1, e2, e3]
        [true, true, true, true] 7 4 2 3 2 1 false ⟨3, 32 * h, 32 * w⟩
      = .ok [⟨e0, 8 * h, 8 * w⟩, ⟨e1, 4 * h, 4 * w⟩,
             ⟨e2, 2 * h, 2 * w⟩, ⟨e3, h, w⟩] := by
  have hnorms : buildForkNorms [e0, e1, e2, e3] false
      = [(0, some e0), (2, some e1), (4, some e2), (6, some e3)] := rfl
  refine ⟨hnorms, ?_⟩
  have hnet : buildNetwork [l0, l1, l2, l3] [e0, e1, e2, e3]
      [true, true, true, true] 3 2 1
      = [.stage e0 l0, .embed 3 2 1 e0 e1, .stage e1 l1, .embed 3 2 1 e1 e2,
         .stage e2 l2, .embed 3 2 1 e2 e3, .stage e3 l3] := by
    simp [buildNetwork, List.range_succ]
  have ch1 : convOutSize (32 * h) 7 4 2 = 8 * h := by unfold convOutSize; omega
  have cw1 : convOutSize (32 * w) 7 4 2 = 8 * w := by unfold convOutSize; omega
  have ch2 : convOutSize (8 * h) 3 2 1 = 4 * h := by unfold convOutSize; omega
  have cw2 : convOutSize (8 * w) 3 2 1 = 4 * w := by unfold convOutSize; omega
  have ch3 : convOutSize (4 * h) 3 2 1 = 2 * h := by unfold convOutSize; omega
  have cw3 : convOutSize (4 * w) 3 2 1 = 2 * w := by unfold convOutSize; omega
  have ch4 : convOutSize (2 * h) 3 2 1 = 1 * h := by unfold convOutSize; omega
  have cw4 : convOutSize (2 * w) 3 2 1 = 1 * w := by unfold convOutSize; omega
  unfold pfForwardForkShapes
  rw [hnet, hnorms]
  simp [patchEmbedShape, forwardTokensAux, applyPFModule, normShape,
    bind, Except.bind, pure, Except.pure, ch1, cw1, ch2, cw2, ch3, cw3, ch4,
    cw4]

/-- Witness for C3: the S12 feature-pyramid configuration on a `224×224`
input yields the four pyramid shapes `56, 28, 14, 7`. -/
theorem pfForwardFork_feature_pyramid_witness :
    (0 < 7 ∧
      pfForwardForkShapes [2, 2, 6, 2] [64, 128, 320, 512]
          [true, true, true, true] 7 4 2 3 2 1 false ⟨3, 224, 224⟩
        = .ok [⟨64, 56, 56⟩, ⟨128, 28, 28⟩, ⟨320, 14, 14⟩, ⟨512, 7, 7⟩]) := by
  refine ⟨by decide, ?_⟩
  exact (pfForwardFork_feature_pyramid 2 2 6 2 64 128 320 512 7 7
    (by decide) (by decide)).2

/-- C7: in classification mode the forward applies the final normalization,
global average pooling over the two spatial axes and the linear classifier,
returning one logit vector of `num_classes` entries per sample when
`num_classes > 0`; constructed with `num_classes = 0` the head is the
identity and the per-sample output is the pooled `embed_dims[-1]`-dimensional
feature vector. -/
theorem pfForwardClass_logits (l0 l1 l2 l3 e0 e1 e2 e3 h w numClasses : ℕ)
    (hh : 0 < h) (hw : 0 < w) :
    (0 < numClasses →
      pfForwardClassShapes [l0, l1, l2, l3] [e0, e1, e2, e3]
          [true, true, true, true] 7 4 2 3 2 1 numClasses ⟨3, 32 * h, 32 * w⟩
        = .ok numClasses) ∧
    pfForwardClassShapes [l0, l1, l2, l3] [e0, e1, e2, e3]
        [true, true, true, true] 7 4 2 3 2 1 0 ⟨3, 32 * h, 32 * w⟩
      = .ok e3 := by
  have hnet : buildNetwork [l0, l1, l2, l3] [e0, e1, e2, e3]
      [true, true, true, true] 3 2 1
      = [.stage e0 l0, .embed 3 2 1 e0 e1, .stage e1 l1, .embed 3 2 1 e1 e2,
         .stage e2 l2, .embed 3 2 1 e2 e3, .stage e3 l3] := by
    simp [buildNetwork, List.range_succ]
  have ch1 : convOutSize (32 * h) 7 4 2 = 8 * h := by unfold convOutSize; omega
  have cw1 : convOutSize (32 * w) 7 4 2 = 8 * w := by unfold convOutSize; omega
  have ch2 : convOutSize (8 * h) 3 2 1 = 4 * h := by unfold convOutSize; omega
  have cw2 : convOutSize (8 * w) 3 2 1 = 4 * w := by unfold convOutSize; omega
  have ch3 : convOutSize (4 * h) 3 2 1 = 2 * h := by unfold convOutSize; omega
  have cw3 : convOutSize (4 * w) 3 2 1 = 2 * w := by unfold convOutSize; omega
  have ch4 : convOutSize (2 * h) 3 2 1 = 1 * h := by unfold convOutSize; omega
  have cw4 : convOutSize (2 * w) 3 2 1 = 1 * w := by unfold convOutSize; omega
  constructor
  · intro hn
    unfold pfForwardClassShapes
    rw [hnet]
    simp [patchEmbedShape, forwardTokensAux, applyPFModule, normShape,
      bind, Except.bind, pure, Except.pure, hn,
      ch1, cw1, ch2, cw2, ch3, cw3, ch4, cw4]
  · unfold pfForwardClassShapes
    rw [hnet]
    simp [patchEmbedShape, forwardTokensAux, applyPFModule, normShape,
      bind, Except.bind, pure, Except.pure,
      ch1, cw1, ch2, cw2, ch3, cw3, ch4, cw4]

/-- Witness for C7: the S12 classification configuration on a `224×224` input
returns 1000 logits per sample; with `num_classes = 0` it returns the 512
pooled features. -/
theorem pfForwardClass_logits_witness :
    (0 < 1000 ∧
      pfForwardClassShapes [2, 2, 6, 2] [64, 128, 320, 512]
          [true, true, true, true] 7 4 2 3 2 1 1000 ⟨3, 224, 224⟩
        = .ok 1000 ∧
      pfForwardClassShapes [2, 2, 6, 2] [64, 128, 320, 512]
          [true, true, true, true] 7 4 2 3 2 1 0 ⟨3, 224, 224⟩
        = .ok 512) := by
  have h := pfForwardClass_logits 2 2 6 2 64 128 320 512 7 7 1000
    (by decide) (by decide)
  exact ⟨by decide, h.1 (by decide), h.2⟩

/-! ## `reset_classifier` and the never-assigned `embed_dim` attribute

`PoolFormer.__init__` assigns (among the attributes relevant here)
`num_classes` (classification mode only), `fork_feat`, and in classification
mode `head = Linear(embed_dims[-1], num_classes) if num_classes > 0 else
Identity()`; no constructor path ever assigns `embed_dim`.
`reset_classifier` first sets `num_classes`, then evaluates
`nn.Linear(self.embed_dim, num_classes) if num_classes > 0 else
nn.Identity()`; reading the never-assigned `embed_dim` raises
`AttributeError`. -/

/-- The classifier head object. -/
inductive HeadKind where
  | linear (inFeatures outFeatures : ℕ)
  | identity
deriving DecidableEq

/-- The attributes of a `PoolFormer` instance read or written by
`reset_classifier`; `none` means "attribute never assigned". -/
structure PFAttrs where
  embed_dim : Option ℕ
  num_classes : Option ℕ
  fork_feat : Bool
  head : Option HeadKind
deriving DecidableEq

/-- The attribute state established by `PoolFormer.__init__` (either mode,
any configuration): `embed_dim` is never assigned. -/
def pfInitAttrs (forkFeat : Bool) (embedDims : List ℕ) (numClasses : ℕ) :
    PFAttrs :=
  { embed_dim := none,
    num_classes := if forkFeat then none else some numClasses,
    fork_feat := forkFeat,
    head :=
      if forkFeat then none
      else some (if 0 < numClasses then
          .linear (embedDims.getLastD 0) numClasses
        else .identity) }

/-- `PoolFormer.reset_classifier`, transcribed with Python attribute-lookup
semantics: the `num_classes > 0` arm reads `self.embed_dim` and raises when
the attribute does not exist. -/
def resetClassifier (s : PFAttrs) (numClasses : ℕ) : Except String PFAttrs :=
  let s1 : PFAttrs := { s with num_classes := some numClasses }
  if 0 < numClasses then
    match s1.embed_dim with
    | none =>
        .error "AttributeError: PoolFormer object has no attribute embed_dim"
    | some d => .ok { s1 with head := some (.linear d numClasses) }
  else .ok { s1 with head := some .identity }

/-- C10: for every constructed model, `embed_dim` is unassigned, so
`reset_classifier` with a positive class count always raises
`AttributeError`; only the `num_classes = 0` case succeeds, installing an
identity head without reading `embed_dim`. -/
theorem resetClassifier_attribute_error (forkFeat : Bool)
    (embedDims : List ℕ) (numClasses n : ℕ) :
    (pfInitAttrs forkFeat embedDims numClasses).embed_dim = none ∧
    (0 < n → resetClassifier (pfInitAttrs forkFeat embedDims numClasses) n
      = .error
          "AttributeError: PoolFormer object has no attribute embed_dim") ∧
    resetClassifier (pfInitAttrs forkFeat embedDims numClasses) 0
      = .ok { pfInitAttrs forkFeat embedDims numClasses with
          num_classes := some 0, head := some .identity } := by
  refine ⟨rfl, fun hn => ?_, ?_⟩
  · unfold resetClassifier
    rw [if_pos hn]
    simp [pfInitAttrs]
  · unfold resetClassifier
    simp

/-- Witness for C10: a default classification-mode model; resetting to 1000
classes raises, resetting to 0 classes succeeds. -/
theorem resetClassifier_attribute_error_witness :
    (0 < 1000 ∧
      resetClassifier (pfInitAttrs false [64, 128, 320, 512] 1000) 1000
        = .error
            "AttributeError: PoolFormer object has no attribute embed_dim") :=
  ⟨by decide,
    (resetClassifier_attribute_error false [64, 128, 320, 512] 1000
      1000).2.1 (by decide)⟩

end PoolFormerProof
